import Mathlib

/-!
Verification development for a concurrent web scraper (`main.py`).

The program crawls a fixed set of hub listing pages, paginates through each
(hub, difficulty) pair, extracts article title/link pairs, deduplicates the
collected list by link, and writes a CSV file.

We shallowly embed the program's functions:
  * `save_to_csv` (the writer) over an abstract iteration order of the
    Python `set` of distinct links;
  * `scroll_to_load_articles` as a fuel-indexed loop over an abstract
    sequence of page-height measurements;
  * `open_habr_hub`, `parse_articles`, `parse_hub` as trace-producing
    functions over an abstract `World` oracle describing, per page, whether
    navigation raises, whether the wait for the marker element finds it or
    raises, whether scrolling / element lookup raise, and the article nodes;
  * the result-collection join of `main` over a list of per-task outcomes;
  * the `CPU_THREADS` environment read with a small dynamic Python value type.
-/

/-- An article record `{'title': ..., 'link': ...}` as produced by
`parse_article`. -/
structure Article where
  title : String
  link : String
deriving DecidableEq, Repr

/-! ## Writer: `save_to_csv`

```python
def save_to_csv(parsed_articles, filename):
    unique_links = set(article['link'] for article in parsed_articles)
    with open(...) as file:
        writer = csv.writer(file)
        writer.writerow(['Title', 'Link'])
        for link in unique_links:
            article = next((a for a in parsed_articles if a['link'] == link), None)
            if article:
                writer.writerow([article['title'], article['link']])
```

Python `set` iteration order is unspecified, so the embedding takes the
iteration order as a parameter `linkOrder`: any duplicate-free list whose
members are exactly the links occurring in the input.  `next(...)` with a
predicate is `List.find?`; the `if article:` truthiness test on a two-key
dict is the `some`/`none` test. -/

/-- `linkOrder` is a valid iteration order of
`set(article['link'] for article in parsed_articles)`:
duplicate-free and containing exactly the links of the input. -/
def IsLinkOrder (linkOrder : List String) (parsed_articles : List Article) : Prop :=
  linkOrder.Nodup ∧ (∀ l ∈ linkOrder, l ∈ parsed_articles.map Article.link) ∧
    ∀ l ∈ parsed_articles.map Article.link, l ∈ linkOrder

instance (linkOrder : List String) (parsed_articles : List Article) :
    Decidable (IsLinkOrder linkOrder parsed_articles) := by
  unfold IsLinkOrder; infer_instance

theorem isLinkOrder_mem_iff {linkOrder : List String} {parsed : List Article}
    (h : IsLinkOrder linkOrder parsed) :
    ∀ l, l ∈ linkOrder ↔ l ∈ parsed.map Article.link :=
  fun l => ⟨fun hl => h.2.1 l hl, fun hl => h.2.2 l hl⟩

/-- The data rows written by `save_to_csv` (below the header), each row being
the `[article['title'], article['link']]` pair of the article found for one
distinct link.  A row is represented by the `Article` whose two fields are
written. -/
def save_to_csv_dataRows (linkOrder : List String) (parsed_articles : List Article) :
    List Article :=
  linkOrder.filterMap fun link => parsed_articles.find? fun a => a.link == link

/-- The full CSV contents written by `save_to_csv`: the header row
`['Title', 'Link']` followed by the data rows. -/
def save_to_csv_rows (linkOrder : List String) (parsed_articles : List Article) :
    List (List String) :=
  ["Title", "Link"] :: (save_to_csv_dataRows linkOrder parsed_articles).map
    fun a => [a.title, a.link]

/-- If `l` is a link of some input article then `find?` succeeds and the
found article carries exactly that link. -/
theorem find_link_of_mem {l : String} {parsed : List Article}
    (h : l ∈ parsed.map Article.link) :
    ∃ a, parsed.find? (fun a => a.link == l) = some a ∧ a.link = l := by
  obtain ⟨a, ha, rfl⟩ := List.mem_map.1 h
  have hsome : (parsed.find? fun b => b.link == a.link).isSome := by
    apply List.find?_isSome.2
    exact ⟨a, ha, by simp⟩
  obtain ⟨b, hb⟩ := Option.isSome_iff_exists.1 hsome
  refine ⟨b, hb, ?_⟩
  have := List.find?_some hb
  simpa using this

/-- The links of the data rows are exactly the iteration order list. -/
theorem dataRows_map_link (linkOrder : List String) (parsed : List Article)
    (hmem : ∀ l, l ∈ linkOrder → l ∈ parsed.map Article.link) :
    (save_to_csv_dataRows linkOrder parsed).map Article.link = linkOrder := by
  induction linkOrder with
  | nil => rfl
  | cons l ls ih =>
    obtain ⟨a, ha, hla⟩ := find_link_of_mem (hmem l (by simp))
    simp only [save_to_csv_dataRows, List.filterMap_cons, ha]
    simp only [List.map_cons, hla]
    have := ih fun x hx => hmem x (by simp [hx])
    simpa [save_to_csv_dataRows] using congrArg (List.cons l) this

/-- `find?` returns the first element satisfying the predicate: the list splits
as `pre ++ a :: post` with nothing in `pre` satisfying it. -/
theorem find_first {p : Article → Bool} {l : List Article} {a : Article}
    (h : l.find? p = some a) :
    ∃ pre post, l = pre ++ a :: post ∧ p a = true ∧ ∀ b ∈ pre, p b = false := by
  induction l with
  | nil => simp at h
  | cons x xs ih =>
    by_cases hx : p x
    · rw [List.find?_cons_of_pos _ hx] at h
      have hxa : x = a := by simpa using h
      subst hxa
      exact ⟨[], xs, rfl, hx, by simp⟩
    · rw [List.find?_cons_of_neg _ (by simpa using hx)] at h
      obtain ⟨pre, post, hl, hpa, hpre⟩ := ih h
      refine ⟨x :: pre, post, by simp [hl], hpa, ?_⟩
      intro b hb
      rcases List.mem_cons.1 hb with rfl | hb
      · simpa using hx
      · exact hpre b hb

/-- The number of data rows carrying link `l` equals the number of occurrences
of `l` in the iteration order. -/
theorem dataRows_filter_length (linkOrder : List String) (parsed : List Article)
    (hmem : ∀ l, l ∈ linkOrder → l ∈ parsed.map Article.link) (l : String) :
    ((save_to_csv_dataRows linkOrder parsed).filter fun a => a.link == l).length
      = (linkOrder.filter (· == l)).length := by
  have hmap := dataRows_map_link linkOrder parsed hmem
  calc ((save_to_csv_dataRows linkOrder parsed).filter fun a => a.link == l).length
      = (((save_to_csv_dataRows linkOrder parsed).filter
          fun a => a.link == l).map Article.link).length := by
        rw [List.length_map]
    _ = (((save_to_csv_dataRows linkOrder parsed).map Article.link).filter
          (· == l)).length := by
        rw [List.filter_map]; rfl
    _ = (linkOrder.filter (· == l)).length := by rw [hmap]

/-- Each distinct input link heads exactly one data row. -/
theorem dataRows_count_one (linkOrder : List String) (parsed : List Article)
    (h : IsLinkOrder linkOrder parsed) {l : String}
    (hl : l ∈ parsed.map Article.link) :
    ((save_to_csv_dataRows linkOrder parsed).filter
      fun a => a.link == l).length = 1 := by
  rw [dataRows_filter_length linkOrder parsed h.2.1 l]
  have hcount : linkOrder.count l = 1 :=
    List.count_eq_one_of_mem h.1 (h.2.2 l hl)
  simpa [List.count, List.countP_eq_length_filter] using hcount

/-- C1.  For every input list of articles and every valid iteration order of
the link set, the CSV produced by `save_to_csv` contains no two data rows with
the same link, and each distinct link of the input appears in exactly one data
row. -/
theorem save_to_csv_no_duplicate_links (linkOrder : List String)
    (parsed : List Article) (h : IsLinkOrder linkOrder parsed) :
    ((save_to_csv_dataRows linkOrder parsed).map Article.link).Nodup ∧
      ∀ l ∈ parsed.map Article.link,
        ((save_to_csv_dataRows linkOrder parsed).filter
          fun a => a.link == l).length = 1 := by
  have hmap := dataRows_map_link linkOrder parsed h.2.1
  constructor
  · rw [hmap]; exact h.1
  · intro l hl
    exact dataRows_count_one linkOrder parsed h hl

/-- The concrete input of the spec's writer example:
`[{title:"A", link:"L1"}, {title:"B", link:"L1"}, {title:"C", link:"L2"}]`. -/
def demoArticles : List Article :=
  [⟨"A", "L1"⟩, ⟨"B", "L1"⟩, ⟨"C", "L2"⟩]

/-- C1 witness at a concrete input: duplicate-free links, and exactly one data
row carries link `"L1"`. -/
theorem save_to_csv_no_duplicate_links_witness :
    ((save_to_csv_dataRows ["L1", "L2"] demoArticles).map Article.link).Nodup ∧
      ((save_to_csv_dataRows ["L1", "L2"] demoArticles).filter
        fun a => a.link == "L1").length = 1 := by
  have h := save_to_csv_no_duplicate_links ["L1", "L2"] demoArticles (by decide)
  exact ⟨h.1, h.2 "L1" (by decide)⟩

/-- C2.  For every valid iteration order, `save_to_csv` writes one data row per
distinct link, and the unique row for link `l` is the first article of the
original (not deduplicated) input having that link: the input splits as
`pre ++ a :: post` with no article in `pre` carrying `l`. -/
theorem save_to_csv_first_occurrence (linkOrder : List String)
    (parsed : List Article) (h : IsLinkOrder linkOrder parsed) :
    (save_to_csv_dataRows linkOrder parsed).length = linkOrder.length ∧
      ∀ l ∈ parsed.map Article.link, ∃ a pre post,
        ((save_to_csv_dataRows linkOrder parsed).filter
          fun b => b.link == l) = [a] ∧
        parsed = pre ++ a :: post ∧ a.link = l ∧ ∀ b ∈ pre, b.link ≠ l := by
  have hmap := dataRows_map_link linkOrder parsed h.2.1
  constructor
  · calc (save_to_csv_dataRows linkOrder parsed).length
        = ((save_to_csv_dataRows linkOrder parsed).map Article.link).length := by
          rw [List.length_map]
      _ = linkOrder.length := by rw [hmap]
  · intro l hl
    have hone := dataRows_count_one linkOrder parsed h hl
    obtain ⟨a, ha⟩ := List.length_eq_one.1 hone
    have hamem : a ∈ (save_to_csv_dataRows linkOrder parsed).filter
        fun b => b.link == l := by rw [ha]; simp
    have hafil := List.mem_filter.1 hamem
    have halink : a.link = l := by simpa using hafil.2
    obtain ⟨l', hl', hfind⟩ := List.mem_filterMap.1 hafil.1
    have hal' : a.link = l' := by simpa using List.find?_some hfind
    obtain ⟨pre, post, hsplit, hpa, hpre⟩ := find_first hfind
    refine ⟨a, pre, post, ha, hsplit, halink, ?_⟩
    intro b hb hbl
    have := hpre b hb
    rw [hbl, ← halink, hal'] at this
    simp at this

/-- C2 witness at the concrete input from the claim: the output has exactly the
two data rows `("A", "L1")` and `("C", "L2")`, the `"L1"` row carrying the
title of the first `"L1"` article. -/
theorem save_to_csv_first_occurrence_witness :
    (save_to_csv_dataRows ["L1", "L2"] demoArticles).length = 2 ∧
      save_to_csv_dataRows ["L1", "L2"] demoArticles
        = [⟨"A", "L1"⟩, ⟨"C", "L2"⟩] ∧
      ((save_to_csv_dataRows ["L1", "L2"] demoArticles).filter
        fun b => b.link == "L1") = [⟨"A", "L1"⟩] := by
  have h := save_to_csv_first_occurrence ["L1", "L2"] demoArticles (by decide)
  exact ⟨h.1, by decide, by decide⟩

/-! ## Configuration: `CPU_THREADS`

```python
CPU_THREADS = os.getenv('CPU_THREADS')
...
with ThreadPoolExecutor(max_workers=CPU_THREADS) as executor:
```

`os.getenv` returns the raw environment string, or `None` when the variable is
absent; the value is handed to `ThreadPoolExecutor` with no parsing or
validation in between.  We model the dynamic Python value that flows into the
constructor. -/

/-- A Python value as relevant here: `None`, a string, or an integer. -/
inductive PyValue where
  | pyNone
  | pyStr (s : String)
  | pyInt (n : Int)
deriving DecidableEq, Repr

/-- `os.getenv(key)`: the raw environment string, or `None` when absent. -/
def os_getenv (env : String → Option String) (key : String) : PyValue :=
  match env key with
  | some s => .pyStr s
  | none => .pyNone

/-- `CPU_THREADS = os.getenv('CPU_THREADS')` (module-level, line 21). -/
def CPU_THREADS (env : String → Option String) : PyValue :=
  os_getenv env "CPU_THREADS"

/-- The value passed as `max_workers` to `ThreadPoolExecutor` in `main`
(line 171): `CPU_THREADS` itself, unparsed and unvalidated. -/
def max_workers_arg (env : String → Option String) : PyValue :=
  CPU_THREADS env

/-- Modelled from the spec: the worker-pool constructor's documented size
precondition — `max_workers` is a positive integer.  (`ThreadPoolExecutor` is
an external collaborator; its contract is not part of this repository's
source.) -/
def threadPool_size_precond (v : PyValue) : Prop :=
  ∃ n : Int, v = .pyInt n ∧ 0 < n

/-! ## Scrolling: `scroll_to_load_articles`

```python
last_height = driver.execute_script("return document.body.scrollHeight")
while True:
    driver.execute_script("window.scrollTo(0, document.body.scrollHeight);")
    time.sleep(SCROLL_PAUSE_TIME)
    new_height = driver.execute_script("return document.body.scrollHeight")
    if new_height == last_height:
        break
    last_height = new_height
```

The successive height measurements are an abstract sequence `h : Nat → Int`
(`h 0` is the initial measurement, `h k` the one after the `k`-th scroll).
The loop is embedded with explicit fuel; `some k` means the loop exited after
measurement `k`, `none` means it was still running when the fuel ran out.
Invariant of the embedding: on entry to `scroll_go h i fuel`, the Python
variable `last_height` holds `h i`. -/

def scroll_go (h : Nat → Int) (i : Nat) : Nat → Option Nat
  | 0 => none
  | fuel + 1 =>
    if h (i + 1) = h i then some (i + 1) else scroll_go h (i + 1) fuel

/-- `scroll_to_load_articles`, fuel-indexed: starts with `last_height = h 0`. -/
def scroll_to_load_articles (h : Nat → Int) (fuel : Nat) : Option Nat :=
  scroll_go h 0 fuel

/-- If the loop exits, two consecutive measurements were equal. -/
theorem scroll_go_some_eq {h : Nat → Int} {i k : Nat} :
    ∀ {fuel : Nat}, scroll_go h i fuel = some k → ∃ n, h (n + 1) = h n := by
  intro fuel
  induction fuel generalizing i with
  | zero => intro hc; simp [scroll_go] at hc
  | succ fuel ih =>
    intro hc
    by_cases heq : h (i + 1) = h i
    · exact ⟨i, heq⟩
    · rw [scroll_go, if_neg heq] at hc
      exact ih hc

/-- If two consecutive measurements within reach are equal, the loop exits. -/
theorem scroll_go_terminates {h : Nat → Int} :
    ∀ (fuel i : Nat), (∃ m, 1 ≤ m ∧ m ≤ fuel ∧ h (i + m) = h (i + m - 1)) →
      (scroll_go h i fuel).isSome := by
  intro fuel
  induction fuel with
  | zero => rintro i ⟨m, hm1, hm0, _⟩; omega
  | succ fuel ih =>
    rintro i ⟨m, hm1, hmf, hmeq⟩
    by_cases heq : h (i + 1) = h i
    · simp [scroll_go, heq]
    · rw [scroll_go, if_neg heq]
      apply ih
      have hm2 : 2 ≤ m := by
        rcases Nat.lt_or_ge m 2 with hlt | hge
        · interval_cases m
          · exact absurd (by simpa using hmeq) heq
        · exact hge
      refine ⟨m - 1, by omega, by omega, ?_⟩
      have e1 : i + 1 + (m - 1) = i + m := by omega
      rw [e1]
      exact hmeq

/-- C5.  The scroll-stabilization loop terminates if and only if two
consecutive page-height measurements are equal; with no iteration cap, a page
whose measured height changes on every measurement makes the loop run forever
(no fuel suffices). -/
theorem scroll_to_load_articles_terminates_iff (h : Nat → Int) :
    ((∃ fuel, (scroll_to_load_articles h fuel).isSome) ↔
        ∃ n, h (n + 1) = h n) ∧
      ((∀ n, h (n + 1) ≠ h n) → ∀ fuel, scroll_to_load_articles h fuel = none) := by
  constructor
  · constructor
    · rintro ⟨fuel, hs⟩
      obtain ⟨k, hk⟩ := Option.isSome_iff_exists.1 hs
      exact scroll_go_some_eq hk
    · rintro ⟨n, hn⟩
      refine ⟨n + 1, scroll_go_terminates (n + 1) 0 ⟨n + 1, by omega, le_rfl, ?_⟩⟩
      simpa using hn
  · intro hne fuel
    cases hc : scroll_to_load_articles h fuel with
    | none => rfl
    | some k =>
      obtain ⟨n, hn⟩ := scroll_go_some_eq hc
      exact absurd hn (hne n)

/-- C5 witness: a page whose measured height grows on every measurement keeps
the loop running — after 5 (or any number of) iterations it has not exited. -/
theorem scroll_to_load_articles_terminates_iff_witness :
    scroll_to_load_articles (fun n => (n : Int)) 5 = none :=
  (scroll_to_load_articles_terminates_iff fun n => (n : Int)).2
    (fun n => by push_cast; omega) 5

/-- C9.  The worker-pool size is read from the environment as a raw string (or
`None` when absent) and passed unparsed to the pool constructor; whenever the
value is absent or a string, the constructor's positive-integer size
precondition is not established. -/
theorem cpu_threads_passed_unparsed (env : String → Option String)
    (h : CPU_THREADS env = .pyNone ∨ ∃ s, CPU_THREADS env = .pyStr s) :
    max_workers_arg env = CPU_THREADS env ∧
      ¬ threadPool_size_precond (max_workers_arg env) := by
  refine ⟨rfl, ?_⟩
  rintro ⟨n, hn, _⟩
  rcases h with h | ⟨s, h⟩ <;>
    · rw [max_workers_arg] at hn
      rw [h] at hn
      exact PyValue.noConfusion hn

/-- C9 witness: with `CPU_THREADS` absent from the environment, the argument
reaching the pool constructor is the raw `None` and fails its precondition. -/
theorem cpu_threads_passed_unparsed_witness :
    CPU_THREADS (fun _ => none) = .pyNone ∧
      max_workers_arg (fun _ => none) = CPU_THREADS (fun _ => none) ∧
      ¬ threadPool_size_precond (max_workers_arg (fun _ => none)) := by
  have h := cpu_threads_passed_unparsed (fun _ => none) (Or.inl rfl)
  exact ⟨rfl, h.1, h.2⟩

/-! ## Crawler: `open_habr_hub`, `parse_articles`, `parse_hub`

The crawler's interaction with the browser is embedded against an abstract
`World` oracle.  Every effectful call either succeeds or raises a Python
exception, modelled by `Err`.  The functions return, alongside their value or
propagated exception, the ordered trace of side effects (`Event`s) they
performed, so that claims about "pages attempted", "pages processed" and
"session closed" are claims about the trace.

```python
def open_habr_hub(driver, hub_url, page_number, difficulty=''):
    url = hub_url.format(page_number=page_number, difficulty=difficulty)
    driver.get(url)                      # outside the try: an error propagates
    try:
        WebDriverWait(driver, 10).until(...)   # marker element
        return True
    except Exception as e:               # ANY exception -> page treated absent
        return False

def parse_articles(driver):
    articles = driver.find_elements(...)
    parsed_articles = []
    for article in articles:
        try:
            parsed_articles.append(parse_article(article))
        except Exception as e:
            continue                     # skip the failing node
    return parsed_articles

def parse_hub(hub_url, difficulty):
    driver = initialize_driver()
    parsed_articles = []
    for page_number in range(1, NUM_PAGES_PER_SEARCH + 1):
        if open_habr_hub(driver, hub_url, page_number, difficulty):
            scroll_to_load_articles(driver)
            parsed_articles.extend(parse_articles(driver))
        else:
            break
    driver.quit()                        # not in a finally block
    return parsed_articles
```
-/

/-- A raised Python exception: the driver-wait timeout, or any other
driver/session error. -/
inductive Err where
  | timeout
  | driverError (code : Nat)
deriving DecidableEq, Repr

/-- Outcome of `WebDriverWait(...).until(presence_of_element_located(...))`
for the marker element of one page: the marker appeared, or the call raised
(`Err.timeout` on expiry, any other exception otherwise). -/
inductive WaitOutcome where
  | found
  | raised (e : Err)
deriving DecidableEq, Repr

/-- A side effect of the crawler, tagged with the page number it acted on. -/
inductive Event where
  | navigate (page : Nat)
  | scroll (page : Nat)
  | extract (page : Nat)
  | quit
deriving DecidableEq, Repr

/-- The oracle a hub-crawl task runs against, for one (hub, difficulty) pair:
per page, whether `driver.get` raises, the outcome of the marker wait, whether
scrolling or `find_elements` raise, and the article nodes with the outcome of
`parse_article` on each. -/
structure World where
  navRaises : Nat → Option Err
  wait : Nat → WaitOutcome
  scrollRaises : Nat → Option Err
  findRaises : Nat → Option Err
  nodes : Nat → List (Except Err Article)

/-- `NUM_PAGES_PER_SEARCH = 16` (line 47). -/
def NUM_PAGES_PER_SEARCH : Nat := 16

/-- `open_habr_hub` for page `p`: navigate (an error here propagates, the call
is outside the `try`), then wait for the marker; any exception from the wait is
caught and turned into `False`. -/
def open_habr_hub (w : World) (p : Nat) : Except Err Bool × List Event :=
  match w.navRaises p with
  | some e => (.error e, [.navigate p])
  | none =>
    match w.wait p with
    | .found => (.ok true, [.navigate p])
    | .raised _ => (.ok false, [.navigate p])

/-- `parse_articles` at the node level: each node's `parse_article` either
returns an article or raises; a raising node is skipped and the loop
continues. -/
def parse_articles (ns : List (Except Err Article)) : List Article :=
  ns.filterMap fun r =>
    match r with
    | .ok a => some a
    | .error _ => none

/-- The page loop of `parse_hub`, with `fuel` pages left to try starting at
page `p`.  On `.ok false` from `open_habr_hub` the loop breaks; a raised
exception anywhere propagates, abandoning the loop. -/
def parse_hub_go (w : World) (p : Nat) : Nat → Except Err (List Article) × List Event
  | 0 => (.ok [], [])
  | fuel + 1 =>
    match open_habr_hub w p with
    | (.error e, evs) => (.error e, evs)
    | (.ok false, evs) => (.ok [], evs)
    | (.ok true, evs) =>
      match w.scrollRaises p with
      | some e => (.error e, evs ++ [.scroll p])
      | none =>
        match w.findRaises p with
        | some e => (.error e, evs ++ [.scroll p, .extract p])
        | none =>
          match parse_hub_go w (p + 1) fuel with
          | (.error e, revs) =>
            (.error e, evs ++ [.scroll p, .extract p] ++ revs)
          | (.ok rest, revs) =>
            (.ok (parse_articles (w.nodes p) ++ rest),
              evs ++ [.scroll p, .extract p] ++ revs)

/-- `parse_hub`: pages 1 to `NUM_PAGES_PER_SEARCH`, then `driver.quit()` —
which is only reached when no exception propagated out of the loop. -/
def parse_hub (w : World) : Except Err (List Article) × List Event :=
  match parse_hub_go w 1 NUM_PAGES_PER_SEARCH with
  | (.error e, evs) => (.error e, evs)
  | (.ok arts, evs) => (.ok arts, evs ++ [.quit])

/-! ## Scheduler join: `main`

```python
for future in as_completed(futures):
    result = future.result()            # re-raises a failed task's exception
    if result:
        parsed_articles.extend(result)
...
save_to_csv(parsed_articles, filename)  # only reached if no task raised
```

`collect_results` folds over the per-task outcomes in completion order;
`future.result()` on a failed task re-raises, which propagates out of `main`
before `save_to_csv` ever runs. -/

def collect_results : List (Except Err (List Article)) → Except Err (List Article)
  | [] => .ok []
  | o :: rest =>
    match o with
    | .error e => .error e
    | .ok r =>
      match collect_results rest with
      | .error e => .error e
      | .ok acc => .ok ((if r.isEmpty then [] else r) ++ acc)

/-- `main` after the join: on success the collected articles reach
`save_to_csv` (data rows under iteration order `linkOrder`); a task exception
propagates and nothing is written. -/
def main_run (linkOrder : List String)
    (outcomes : List (Except Err (List Article))) :
    Except Err (List (List String)) :=
  match collect_results outcomes with
  | .error e => .error e
  | .ok arts => .ok (save_to_csv_rows linkOrder arts)

/-- The driver layer raises no exception anywhere: `driver.get`, scrolling and
`find_elements` all succeed on every page. -/
def NoRaises (w : World) : Prop :=
  ∀ q, w.navRaises q = none ∧ w.scrollRaises q = none ∧ w.findRaises q = none

/-- The articles extracted from pages `p, p+1, ..., p+n-1`, in page order. -/
def pagesArticles (w : World) (p n : Nat) : List Article :=
  (List.range' p n).flatMap fun q => parse_articles (w.nodes q)

/-- The trace of a clean run over pages `p, ..., p+n-1`, each page navigated,
scrolled and extracted in order. -/
def pagesEvents (p n : Nat) : List Event :=
  (List.range' p n).flatMap fun q => [.navigate q, .scroll q, .extract q]

/-- Clean run of the page loop: with no driver exceptions, the marker present
on pages up to `K` and absent on page `K + 1` (which is within the fuel), the
loop processes pages `p..K`, probes page `K + 1`, and stops. -/
theorem parse_hub_go_clean (w : World) (K : Nat) (hclean : NoRaises w) :
    ∀ fuel p, (∀ q, p ≤ q → q ≤ K → w.wait q = .found) →
      w.wait (K + 1) ≠ .found → p ≤ K + 1 → K + 1 < p + fuel →
      parse_hub_go w p fuel =
        (.ok (pagesArticles w p (K + 1 - p)),
          pagesEvents p (K + 1 - p) ++ [.navigate (K + 1)]) := by
  intro fuel
  induction fuel with
  | zero => intro p _ _ hp hlt; omega
  | succ fuel ih =>
    intro p hfound habsent hp hlt
    rcases Nat.lt_or_ge p (K + 1) with hpK | hpK
    · have hwp : w.wait p = .found := hfound p le_rfl (by omega)
      have hrec := ih (p + 1) (fun q hq1 hq2 => hfound q (by omega) hq2)
        habsent (by omega) (by omega)
      have hn : K + 1 - p = (K - p) + 1 := by omega
      have hn' : K + 1 - (p + 1) = K - p := by omega
      rw [hn'] at hrec
      simp only [parse_hub_go, open_habr_hub, (hclean p).1, (hclean p).2.1,
        (hclean p).2.2, hwp, hrec]
      rw [hn]
      simp [pagesArticles, pagesEvents, List.range'_succ, List.flatMap_cons]
    · have hpeq : p = K + 1 := by omega
      subst hpeq
      rcases hw : w.wait (K + 1) with _ | e
      · exact absurd hw habsent
      · simp [parse_hub_go, open_habr_hub, (hclean (K + 1)).1, hw,
          pagesArticles, pagesEvents]

theorem extract_mem_pagesEvents (q p n : Nat) :
    Event.extract q ∈ pagesEvents p n ↔ p ≤ q ∧ q < p + n := by
  simp only [pagesEvents, List.mem_flatMap, List.mem_range'_1]
  constructor
  · rintro ⟨b, hb, hmem⟩
    have hqb : q = b := by
      rcases List.mem_cons.1 hmem with h | h
      · exact Event.noConfusion h
      rcases List.mem_cons.1 h with h' | h'
      · exact Event.noConfusion h'
      rcases List.mem_cons.1 h' with h'' | h''
      · exact Event.noConfusion h'' fun he => he
      · simp at h''
    exact hqb ▸ hb
  · rintro ⟨h1, h2⟩
    exact ⟨q, ⟨h1, h2⟩, by simp⟩

theorem scroll_mem_pagesEvents (q p n : Nat) :
    Event.scroll q ∈ pagesEvents p n ↔ p ≤ q ∧ q < p + n := by
  simp only [pagesEvents, List.mem_flatMap, List.mem_range'_1]
  constructor
  · rintro ⟨b, hb, hmem⟩
    have hqb : q = b := by
      rcases List.mem_cons.1 hmem with h | h
      · exact Event.noConfusion h
      rcases List.mem_cons.1 h with h' | h'
      · exact Event.noConfusion h' fun he => he
      · simp at h'
    exact hqb ▸ hb
  · rintro ⟨h1, h2⟩
    exact ⟨q, ⟨h1, h2⟩, by simp⟩

theorem navigate_mem_pagesEvents (q p n : Nat) :
    Event.navigate q ∈ pagesEvents p n ↔ p ≤ q ∧ q < p + n := by
  simp only [pagesEvents, List.mem_flatMap, List.mem_range'_1]
  constructor
  · rintro ⟨b, hb, hmem⟩
    have hqb : q = b := by
      rcases List.mem_cons.1 hmem with h | h
      · exact Event.noConfusion h fun he => he
      · simp at h
    exact hqb ▸ hb
  · rintro ⟨h1, h2⟩
    exact ⟨q, ⟨h1, h2⟩, by simp⟩

/-- If page `p`'s marker wait raises (any exception), the loop stops at once:
only the navigation to `p` happens and the empty list is returned without an
error. -/
theorem parse_hub_go_break (w : World) (p : Nat) (e : Err)
    (hnav : w.navRaises p = none) (hwait : w.wait p = .raised e) :
    ∀ fuel, 1 ≤ fuel → parse_hub_go w p fuel = (.ok [], [.navigate p]) := by
  intro fuel hfuel
  cases fuel with
  | zero => omega
  | succ f => simp [parse_hub_go, open_habr_hub, hnav, hwait]

/-- A world where only page 1 carries the marker element; the driver never
raises and every page has no article nodes. -/
def wOnePage : World where
  navRaises := fun _ => none
  wait := fun p => if p = 1 then .found else .raised .timeout
  scrollRaises := fun _ => none
  findRaises := fun _ => none
  nodes := fun _ => []

/-- A world whose first page already has no marker element. -/
def wAbsent : World where
  navRaises := fun _ => none
  wait := fun _ => .raised .timeout
  scrollRaises := fun _ => none
  findRaises := fun _ => none
  nodes := fun _ => []

/-- C3 counterexample: in a hub with exactly `K = 1` existing page, the crawler
does attempt page `K + 1 = 2` — it navigates to it to probe the marker — so a
run with one existing page contains a navigation to page 2, contradicting
"stops without attempting page K+1". -/
theorem parse_hub_navigates_to_absent_page :
    wOnePage.wait 1 = .found ∧ wOnePage.wait 2 ≠ .found ∧
      Event.navigate 2 ∈ (parse_hub wOnePage).2 := by decide

/-- C3 (amended).  With no driver errors, the marker present on pages `1..K`
(`K` below the 16-page maximum) and absent on page `K + 1`: the crawler scrolls
and extracts exactly pages `1..K`, navigates to page `K + 1` only to probe its
marker, and never navigates to any page beyond `K + 1`. -/
theorem parse_hub_processes_exactly_K_pages (w : World) (K : Nat)
    (hclean : NoRaises w) (hK : K < NUM_PAGES_PER_SEARCH)
    (hfound : ∀ q, 1 ≤ q → q ≤ K → w.wait q = .found)
    (habsent : w.wait (K + 1) ≠ .found) :
    (parse_hub w).1 = .ok (pagesArticles w 1 K) ∧
      (∀ q, Event.extract q ∈ (parse_hub w).2 ↔ 1 ≤ q ∧ q ≤ K) ∧
      (∀ q, Event.scroll q ∈ (parse_hub w).2 ↔ 1 ≤ q ∧ q ≤ K) ∧
      Event.navigate (K + 1) ∈ (parse_hub w).2 ∧
      (∀ q, K + 1 < q → Event.navigate q ∉ (parse_hub w).2) := by
  have hgo := parse_hub_go_clean w K hclean NUM_PAGES_PER_SEARCH 1 hfound
    habsent (by omega) (by rw [NUM_PAGES_PER_SEARCH] at hK ⊢; omega)
  have hK1 : K + 1 - 1 = K := by omega
  rw [hK1] at hgo
  have hph : parse_hub w =
      (.ok (pagesArticles w 1 K),
        pagesEvents 1 K ++ [Event.navigate (K + 1)] ++ [Event.quit]) := by
    rw [parse_hub, hgo]
  rw [hph]
  refine ⟨rfl, ?_, ?_, ?_, ?_⟩
  · intro q
    simp [List.mem_append, extract_mem_pagesEvents]
    omega
  · intro q
    simp [List.mem_append, scroll_mem_pagesEvents]
    omega
  · simp
  · intro q hq
    simp [List.mem_append, navigate_mem_pagesEvents]
    omega

/-- C3 (amended) witness: the one-page world, `K = 1` — page 1 is extracted,
page 2 is navigated to, page 3 is never navigated to. -/
theorem parse_hub_processes_exactly_K_pages_witness :
    (parse_hub wOnePage).1 = .ok (pagesArticles wOnePage 1 1) ∧
      Event.extract 1 ∈ (parse_hub wOnePage).2 ∧
      Event.navigate 2 ∈ (parse_hub wOnePage).2 ∧
      Event.navigate 3 ∉ (parse_hub wOnePage).2 := by
  have h := parse_hub_processes_exactly_K_pages wOnePage 1
    (fun _ => ⟨rfl, rfl, rfl⟩) (by decide)
    (fun q h1 h2 => by
      have hq : q = 1 := by omega
      subst hq
      rfl)
    (by decide)
  exact ⟨h.1, (h.2.1 1).2 ⟨le_rfl, le_rfl⟩, h.2.2.2.1, h.2.2.2.2 3 (by omega)⟩

/-- C4.  If the marker element is absent from page 1, the crawler scrolls and
extracts zero pages and returns the empty article list: the whole trace is the
single navigation to page 1 followed by the session quit. -/
theorem parse_hub_absent_first_page (w : World) (e : Err)
    (hnav : w.navRaises 1 = none) (hwait : w.wait 1 = .raised e) :
    (parse_hub w).1 = .ok [] ∧
      (parse_hub w).2 = [.navigate 1, .quit] ∧
      (∀ p, Event.scroll p ∉ (parse_hub w).2) ∧
      (∀ p, Event.extract p ∉ (parse_hub w).2) := by
  have hgo := parse_hub_go_break w 1 e hnav hwait NUM_PAGES_PER_SEARCH (by decide)
  have hph : parse_hub w = (.ok [], [.navigate 1, .quit]) := by
    rw [parse_hub, hgo]
    rfl
  rw [hph]
  refine ⟨rfl, rfl, ?_, ?_⟩ <;> intro p <;> simp

/-- C4 witness: the world whose first page has no marker. -/
theorem parse_hub_absent_first_page_witness :
    (parse_hub wAbsent).1 = .ok [] ∧
      (parse_hub wAbsent).2 = [.navigate 1, .quit] ∧
      Event.scroll 1 ∉ (parse_hub wAbsent).2 ∧
      Event.extract 1 ∉ (parse_hub wAbsent).2 := by
  have h := parse_hub_absent_first_page wAbsent .timeout rfl rfl
  exact ⟨h.1, h.2.1, h.2.2.1 1, h.2.2.2 1⟩

/-- The page loop itself never quits the session: `driver.quit()` appears only
after the loop, in `parse_hub`. -/
theorem quit_not_mem_parse_hub_go (w : World) :
    ∀ fuel p, Event.quit ∉ (parse_hub_go w p fuel).2 := by
  intro fuel
  induction fuel with
  | zero => intro p; simp [parse_hub_go]
  | succ fuel ih =>
    intro p
    rw [parse_hub_go]
    cases hn : w.navRaises p with
    | some e => simp [open_habr_hub, hn]
    | none =>
      cases hw : w.wait p with
      | raised e => simp [open_habr_hub, hn, hw]
      | found =>
        cases hs : w.scrollRaises p with
        | some e => simp [open_habr_hub, hn, hw, hs]
        | none =>
          cases hf : w.findRaises p with
          | some e => simp [open_habr_hub, hn, hw, hs, hf]
          | none =>
            rcases hr : parse_hub_go w (p + 1) fuel with ⟨r, revs⟩
            have hq := ih (p + 1)
            rw [hr] at hq
            cases r with
            | error e => simp [open_habr_hub, hn, hw, hs, hf, hr, hq]
            | ok rest => simp [open_habr_hub, hn, hw, hs, hf, hr, hq]

/-- A world where `driver.get` raises on every page (e.g. the session died):
`parse_hub` has no handler, so the exception propagates. -/
def wNavErr : World where
  navRaises := fun _ => some (.driverError 0)
  wait := fun _ => .found
  scrollRaises := fun _ => none
  findRaises := fun _ => none
  nodes := fun _ => []

/-- C6 counterexample: on the exit path where navigation raises, the browser
session is never quit — the run ends with the error and zero `quit` events,
not exactly one. -/
theorem parse_hub_error_path_never_quits :
    (parse_hub wNavErr).1 = .error (.driverError 0) ∧
      ((parse_hub wNavErr).2).count Event.quit = 0 :=
  ⟨rfl, rfl⟩

/-- C6 (amended).  `driver.quit()` is not in a `finally` block: the session is
quit exactly once on every run that raises no exception, and zero times on
every run where navigation, scrolling or extraction raises (the exception
propagates with the session left open). -/
theorem parse_hub_quit_count (w : World) :
    (∀ arts, (parse_hub w).1 = .ok arts →
        ((parse_hub w).2).count Event.quit = 1) ∧
      ∀ e, (parse_hub w).1 = .error e →
        ((parse_hub w).2).count Event.quit = 0 := by
  rcases hgo : parse_hub_go w 1 NUM_PAGES_PER_SEARCH with ⟨r, evs⟩
  have hq : Event.quit ∉ evs := by
    have h := quit_not_mem_parse_hub_go w NUM_PAGES_PER_SEARCH 1
    rw [hgo] at h
    exact h
  cases r with
  | error e =>
    have hph : parse_hub w = (.error e, evs) := by rw [parse_hub, hgo]
    rw [hph]
    constructor
    · intro arts h
      exact absurd h (by simp)
    · intro e' h
      exact List.count_eq_zero.2 hq
  | ok arts =>
    have hph : parse_hub w = (.ok arts, evs ++ [.quit]) := by rw [parse_hub, hgo]
    rw [hph]
    constructor
    · intro arts' h
      rw [List.count_append, List.count_eq_zero.2 hq]
      rfl
    · intro e h
      exact absurd h (by simp)

/-- C6 (amended) witness: a clean run quits once; the navigation-error run
quits zero times. -/
theorem parse_hub_quit_count_witness :
    ((parse_hub wAbsent).2).count Event.quit = 1 ∧
      ((parse_hub wNavErr).2).count Event.quit = 0 :=
  ⟨(parse_hub_quit_count wAbsent).1 [] rfl,
    (parse_hub_quit_count wNavErr).2 (.driverError 0) rfl⟩

/-- An article is in the extraction result exactly when its node parsed
successfully. -/
theorem mem_parse_articles {a : Article} {ns : List (Except Err Article)} :
    a ∈ parse_articles ns ↔ .ok a ∈ ns := by
  simp only [parse_articles, List.mem_filterMap]
  constructor
  · rintro ⟨r, hr, hfa⟩
    cases r with
    | ok b =>
      have hba : b = a := by simpa using hfa
      exact hba ▸ hr
    | error e => simp at hfa
  · intro h
    exact ⟨.ok a, h, rfl⟩

/-- C7.  A node whose `parse_article` raises is skipped: page-level extraction
continues with the remaining nodes, the result is the concatenation of the
successes around the failure, and an article is in the result exactly when its
node parsed successfully. -/
theorem parse_articles_skips_failing_node (xs ys : List (Except Err Article))
    (e : Err) :
    parse_articles (xs ++ .error e :: ys)
        = parse_articles xs ++ parse_articles ys ∧
      ∀ a, a ∈ parse_articles (xs ++ .error e :: ys) ↔
        .ok a ∈ xs ∨ .ok a ∈ ys := by
  constructor
  · simp [parse_articles, List.filterMap_append, List.filterMap_cons]
  · intro a
    rw [mem_parse_articles]
    simp

/-- C7 witness: a failing node between two good ones is skipped and both
neighbours survive. -/
theorem parse_articles_skips_failing_node_witness :
    parse_articles ([.ok ⟨"A", "L1"⟩] ++ .error .timeout :: [.ok ⟨"C", "L2"⟩])
        = parse_articles [.ok ⟨"A", "L1"⟩] ++ parse_articles [.ok ⟨"C", "L2"⟩] ∧
      parse_articles ([.ok ⟨"A", "L1"⟩] ++ .error .timeout :: [.ok ⟨"C", "L2"⟩])
        = [⟨"A", "L1"⟩, ⟨"C", "L2"⟩] := by
  have h := parse_articles_skips_failing_node
    [.ok ⟨"A", "L1"⟩] [.ok ⟨"C", "L2"⟩] .timeout
  exact ⟨h.1, rfl⟩

/-- The merged collection when every task succeeded: all task results
concatenated in completion order. -/
def okParts : List (Except Err (List Article)) → List Article
  | [] => []
  | .ok r :: rest => r ++ okParts rest
  | .error _ :: rest => okParts rest

/-- If some completed future failed, the join re-raises: `future.result()`
propagates an exception and `collect_results` yields an error. -/
theorem collect_results_error (outcomes : List (Except Err (List Article)))
    (h : ∃ e, Except.error e ∈ outcomes) :
    ∃ e, collect_results outcomes = .error e := by
  obtain ⟨e, he⟩ := h
  induction outcomes with
  | nil => simp at he
  | cons o rest ih =>
    cases o with
    | error e' => exact ⟨e', rfl⟩
    | ok r =>
      have hrest : Except.error e ∈ rest := by
        rcases List.mem_cons.1 he with h' | h'
        · exact absurd h' (by simp)
        · exact h'
      obtain ⟨e'', he''⟩ := ih hrest
      refine ⟨e'', ?_⟩
      simp [collect_results, he'']

/-- If every future succeeded, the join collects every task's articles. -/
theorem collect_results_ok (outcomes : List (Except Err (List Article)))
    (h : ∀ o ∈ outcomes, ∃ r, o = .ok r) :
    collect_results outcomes = .ok (okParts outcomes) := by
  induction outcomes with
  | nil => rfl
  | cons o rest ih =>
    obtain ⟨r, hr⟩ := h o (by simp)
    subst hr
    have hrest := ih fun o' ho' => h o' (by simp [ho'])
    rw [collect_results, hrest]
    cases r with
    | nil => simp [okParts]
    | cons x xs => simp [okParts]

/-- C8 counterexample input: three completed tasks, the second of which
raised. -/
def failedJoinOutcomes : List (Except Err (List Article)) :=
  [.ok [⟨"A", "L1"⟩], .error (.driverError 7), .ok [⟨"C", "L2"⟩]]

/-- C8 counterexample: with one failed task among three, `future.result()`
re-raises inside `main`'s join loop, so no merged collection ever reaches the
writer — the sibling tasks' results (`"A"`, `"C"`) are lost, not included. -/
theorem main_join_aborts_on_task_failure :
    main_run ["L1", "L2"] failedJoinOutcomes = .error (.driverError 7) := by rfl

/-- C8 (amended).  The join is all-or-nothing: if any task raised, `main`
re-raises before `save_to_csv` and nothing is written; only when every task
succeeded are all results merged and passed to the writer. -/
theorem main_join_all_or_nothing (linkOrder : List String)
    (outcomes : List (Except Err (List Article))) :
    ((∃ e, Except.error e ∈ outcomes) →
        ∃ e, main_run linkOrder outcomes = .error e) ∧
      ((∀ o ∈ outcomes, ∃ r, o = .ok r) →
        main_run linkOrder outcomes
          = .ok (save_to_csv_rows linkOrder (okParts outcomes))) := by
  constructor
  · intro h
    obtain ⟨e, he⟩ := collect_results_error outcomes h
    exact ⟨e, by simp [main_run, he]⟩
  · intro h
    rw [main_run, collect_results_ok outcomes h]

/-- C8 (amended) witness: a successful singleton batch reaches the writer; the
batch with a failure does not. -/
theorem main_join_all_or_nothing_witness :
    main_run ["L1"] [.ok [⟨"A", "L1"⟩]]
        = .ok (save_to_csv_rows ["L1"] (okParts [.ok [⟨"A", "L1"⟩]])) :=
  (main_join_all_or_nothing ["L1"] [.ok [⟨"A", "L1"⟩]]).2
    (fun o ho => ⟨[⟨"A", "L1"⟩], by simpa using ho⟩)

/-- C10.  The `except Exception` in `open_habr_hub` catches every exception
raised while waiting for the marker — timeout or any other driver error — and
returns `False`; the crawler then treats the hub as exhausted: the page loop
stops with an `ok` (no propagated error) right after the navigation to that
page. -/
theorem open_habr_hub_false_on_any_exception (w : World) (p : Nat) (e : Err)
    (hnav : w.navRaises p = none) (hwait : w.wait p = .raised e) :
    (open_habr_hub w p).1 = .ok false ∧
      ∀ fuel, 1 ≤ fuel → parse_hub_go w p fuel = (.ok [], [.navigate p]) :=
  ⟨by simp [open_habr_hub, hnav, hwait], parse_hub_go_break w p e hnav hwait⟩

/-- A world where the marker wait raises a non-timeout driver error on every
page. -/
def wWaitDriverErr : World where
  navRaises := fun _ => none
  wait := fun _ => .raised (.driverError 3)
  scrollRaises := fun _ => none
  findRaises := fun _ => none
  nodes := fun _ => []

/-- C10 witness: a non-timeout driver error during the wait also yields
`False` and silently ends pagination. -/
theorem open_habr_hub_false_on_any_exception_witness :
    (open_habr_hub wWaitDriverErr 1).1 = .ok false ∧
      parse_hub_go wWaitDriverErr 1 NUM_PAGES_PER_SEARCH
        = (.ok [], [.navigate 1]) := by
  have h := open_habr_hub_false_on_any_exception wWaitDriverErr 1
    (.driverError 3) rfl rfl
  exact ⟨h.1, h.2 NUM_PAGES_PER_SEARCH (by decide)⟩
